import Mathlib

/-!
Verification of the hydra-server price ingestion and fan-out engine.

Shallow embedding of the pure cores of `price_fetcher.py`, `proxy_manager.py`
and `websocket_manager.py`.  Prices are modelled as rationals; Python `None`
becomes `Option.none`; Python truthiness of an optional number (`if x:`)
is `qTruthy`, of an optional string `strTruthy`.
-/

namespace HydraServer

/-- Python truthiness of an optional number: `None` and `0` are falsy. -/
def qTruthy : Option ℚ → Bool
  | none => false
  | some x => decide (x ≠ 0)

/-- Python truthiness of an optional string: `None` and `""` are falsy. -/
def strTruthy : Option String → Bool
  | none => false
  | some s => !s.isEmpty

/-! ## `PriceFetcher.calc_spread` (price_fetcher.py lines 750-768) -/

/-- `calc_spread(cex_bid, cex_ask, dex_price)`:
`if dex_price is None or dex_price <= 0: return None, None`;
`direct = (cex_bid - dex_price) / dex_price * 100` when `cex_bid and cex_bid > 0`;
`reverse = (dex_price - cex_ask) / cex_ask * 100` when `cex_ask and cex_ask > 0`. -/
def calc_spread (cex_bid cex_ask dex_price : Option ℚ) : Option ℚ × Option ℚ :=
  match dex_price with
  | none => (none, none)
  | some dp =>
    if dp ≤ 0 then (none, none)
    else
      ((match cex_bid with
        | some b => if 0 < b then some ((b - dp) / dp * 100) else none
        | none => none),
       (match cex_ask with
        | some a => if 0 < a then some ((dp - a) / a * 100) else none
        | none => none))

/-! ## DEX-B client: `PriceFetcher.get_pancake_price_usdt` (lines 392-469) -/

/-- One DexScreener pair.  `isPancakeDex` models the substring test
`"pancake" in str(pair.get("dexId")).lower()`; `priceUsd` is `None` when the
field is missing or unparsable; `liqUsd` is `liq_usd_val(pair)` (0.0 when the
liquidity field is missing). -/
structure DexPair where
  isPancakeDex : Bool
  priceUsd : Option ℚ
  liqUsd : ℚ
deriving DecidableEq

/-- The loop-body filter of `get_pancake_price_usdt`: skip pairs with a missing
price, with `price_val <= 0 or price_val > 1_000_000`, or with `liq_val <= 0`. -/
def pairValid (p : DexPair) : Bool :=
  match p.priceUsd with
  | none => false
  | some v => decide (0 < v) && decide (v ≤ 1000000) && decide (0 < p.liqUsd)

/-- First pair of maximal `liqUsd` (the semantics of both
`max(pancake_pairs, key=liq_usd_val)` and the `best_any_pair` loop, which
replace the current best only on strictly greater liquidity). -/
def pickBest : List DexPair → Option DexPair
  | [] => none
  | p :: rest =>
    match pickBest rest with
    | none => some p
    | some q => if p.liqUsd < q.liqUsd then some q else some p

/-- Pure core of `get_pancake_price_usdt` given the decoded `pairs` array of a
200 response: filter, prefer pancake pairs, otherwise the best of any dex,
return that pair's `priceUsd`. -/
def get_pancake_price_usdt (pairs : List DexPair) : Option ℚ :=
  if pairs = [] then none
  else
    let valid := pairs.filter pairValid
    let pancakePairs := valid.filter (fun p => p.isPancakeDex)
    match pickBest pancakePairs with
    | some best => best.priceUsd
    | none =>
      match pickBest valid with
      | some best => best.priceUsd
      | none => none

/-! ## DEX-A client: `PriceFetcher.get_jupiter_price_usdt` (lines 471-575) -/

/-- `0.0000001`, the absolute price floor of the Jupiter client. -/
def jupiterFloor : ℚ := 1 / 10000000

/-- `JUPITER_CACHE_TTL = 1.0`. -/
def JUPITER_CACHE_TTL : ℚ := 1

/-- `JUPITER_USDT_AMOUNT = Decimal("100")`. -/
def JUPITER_USDT_AMOUNT : ℚ := 100

/-- A decoded 200 response of the Jupiter quote endpoint.  `outAmount = none`
models a missing or empty `outAmount` field (`if not out_amount_str`);
`priceImpact` is `data.get("priceImpact", 0)`. -/
structure JupResp where
  outAmount : Option ℤ
  priceImpact : ℚ
deriving DecidableEq

/-- The anomaly fallback of the Jupiter client: return the cached per-mint
price when one exists with `cached_price > 0.0000001`, else no price. -/
def jupiterFallback : Option ℚ → Option ℚ
  | some c => if jupiterFloor < c then some c else none
  | none => none

/-- Response processing of `get_jupiter_price_usdt` (lines 523-568), given the
cache entry for this mint (`price, timestamp`), the current time and the
token's decimals.  Returns `(result, new cache entry for the mint)`. -/
def jupiterProcess (cache : Option (ℚ × ℚ)) (now : ℚ) (decimals : ℕ)
    (r : JupResp) : Option ℚ × Option (ℚ × ℚ) :=
  match r.outAmount with
  | none => (none, cache)
  | some outAmt =>
    if 100 < r.priceImpact then (jupiterFallback (cache.map Prod.fst), cache)
    else if outAmt ≤ 0 then (none, cache)
    else
      let tokenAmount : ℚ := (outAmt : ℚ) / 10 ^ decimals
      if tokenAmount ≤ 0 then (none, cache)
      else
        let price : ℚ := JUPITER_USDT_AMOUNT / tokenAmount
        if price < jupiterFloor then (jupiterFallback (cache.map Prod.fst), cache)
        else (some price, some (price, now))

/-- Python `str.strip()`: drop leading and trailing whitespace. -/
def pyStrip (s : String) : String :=
  ⟨((s.data.dropWhile Char.isWhitespace).reverse.dropWhile Char.isWhitespace).reverse⟩

/-- `mint in _jupiter_price_cache and current_time - cached_time < JUPITER_CACHE_TTL`. -/
def cacheFresh (cache : Option (ℚ × ℚ)) (now : ℚ) : Bool :=
  match cache with
  | some (_, t) => decide (now - t < JUPITER_CACHE_TTL)
  | none => false

/-- `get_jupiter_price_usdt`: empty-mint guard, TTL cache hit, then process the
first 200 response (`resp = none` models all attempts failing with a non-200
status or transport error).  Returns `(result, cache entry after the call)`. -/
def get_jupiter_price_usdt (mint : String) (cache : Option (ℚ × ℚ)) (now : ℚ)
    (decimals : ℕ) (resp : Option JupResp) : Option ℚ × Option (ℚ × ℚ) :=
  if (pyStrip mint).isEmpty then (none, cache)
  else if cacheFresh cache now then (cache.map Prod.fst, cache)
  else
    match resp with
    | none => (none, cache)
    | some r => jupiterProcess cache now decimals r

/-! ## DEX-C client price computation: `PriceFetcher.get_matcha_price_usdt`
(lines 720-738, the 200-response processing) -/

/-- `MATCHA_USDT_AMOUNT = Decimal("100")`. -/
def MATCHA_USDT_AMOUNT : ℚ := 100

/-- Price computation of the Matcha client from a decoded `buyAmount`:
`if buy_amount_raw <= 0: return None`; `token_amount = buy_amount_raw / 10**dec`;
`if token_amount <= 0: return None`; `price = 100 / token_amount`. -/
def matchaPrice (tokenDecimals : ℕ) (buyAmountRaw : ℤ) : Option ℚ :=
  if buyAmountRaw ≤ 0 then none
  else
    let tokenAmount : ℚ := (buyAmountRaw : ℚ) / 10 ^ tokenDecimals
    if tokenAmount ≤ 0 then none
    else some (MATCHA_USDT_AMOUNT / tokenAmount)

/-! ## Retry budgets (`max_retries` defaults of the four upstream clients) -/

/-- `get_all_mexc_prices(self, max_retries: int = 2)`. -/
def MEXC_BATCH_DEFAULT_RETRIES : ℕ := 2

/-- `get_pancake_price_usdt(self, token_address, max_retries: int = 2)`. -/
def PANCAKE_DEFAULT_RETRIES : ℕ := 2

/-- `get_jupiter_price_usdt(self, mint, decimals, max_retries: int = 2)`. -/
def JUPITER_DEFAULT_RETRIES : ℕ := 2

/-- `get_matcha_price_usdt(self, token_address, token_decimals, max_retries: int = 3)`. -/
def MATCHA_DEFAULT_RETRIES : ℕ := 3

/-- A `for attempt in range(max_retries)` loop where each iteration makes one
request attempt and either returns a result or continues.  Returns the result
and the number of attempts actually made. -/
def runAttempts : List (Option ℚ) → Option ℚ × ℕ
  | [] => (none, 0)
  | o :: rest =>
    match o with
    | some a => (some a, 1)
    | none =>
      let r := runAttempts rest
      (r.1, r.2 + 1)

/-- Number of request attempts a client with budget `maxRetries` makes when
attempt `i` has outcome `outcomes i`. -/
def clientAttemptCount (maxRetries : ℕ) (outcomes : ℕ → Option ℚ) : ℕ :=
  (runAttempts ((List.range maxRetries).map outcomes)).2

/-! ## `PriceFetcher.fetch_token_data` (lines 770-920) -/

/-- The routing-relevant fields of a `Token` row (models.py lines 24-54).
`dexes` is the JSON `dex_allow_list` column; `[]` stands for both SQL `NULL`
and an empty list (both are falsy in `if token.dexes`). -/
structure TokenCfg where
  name : String
  base : String
  quote : String
  dexes : List String
  jupiter_mint : Option String
  jupiter_decimals : Option ℤ
  bsc_address : Option String
  matcha_address : Option String
  matcha_decimals : Option ℤ
  mexc_symbol : Option String
deriving DecidableEq

/-- Lines 780-791: `allowed = set(token.dexes) if token.dexes else set()`,
then on a falsy `dexes` add each DEX whose routing field is truthy, and if
none is present default to all three. -/
def allowedDexes (t : TokenCfg) : List String :=
  match t.dexes with
  | [] =>
    let auto := (if strTruthy t.bsc_address then ["pancake"] else []) ++
                (if strTruthy t.jupiter_mint then ["jupiter"] else []) ++
                (if strTruthy t.matcha_address then ["matcha"] else [])
    if auto = [] then ["pancake", "jupiter", "matcha"] else auto
  | ds => ds

/-- One per-DEX block of an Observation (lines 881-907). -/
structure DexBlock where
  direct : Option ℚ
  reverse : Option ℚ
  dex_price : ℚ
  cex_bid : Option ℚ
  cex_ask : Option ℚ
deriving DecidableEq

/-- The dict returned by `fetch_token_data` (lines 914-920). -/
structure Observation where
  token_name : String
  mexc_price : Option ℚ × Option ℚ
  mexc_limit : Option ℚ
  spreads : List (String × DexBlock)
  timestamp : ℚ
deriving DecidableEq

/-- Lines 855-877, the DEX-A (Jupiter) cross-validation against the MEXC
mid-price.  `mintTruthy` is the truthiness of `token.jupiter_mint`, `cached`
the `_jupiter_price_cache` entry for that mint.  Outside the
`jupiter_price and cex_bid and cex_ask`, `mexc_mid > 0` and
`jupiter_vs_mexc_diff > 0.5` guards the price is returned unchanged. -/
def crossValidateJupiter (mintTruthy : Bool) (cached : Option ℚ)
    (cex_bid cex_ask jp : Option ℚ) : Option ℚ :=
  if qTruthy jp && qTruthy cex_bid && qTruthy cex_ask then
    let p := jp.getD 0
    let b := cex_bid.getD 0
    let a := cex_ask.getD 0
    let mexc_mid := (b + a) / 2
    if 0 < mexc_mid then
      let diff := |p - mexc_mid| / mexc_mid
      if 1 / 2 < diff then
        if mintTruthy then
          match cached with
          | some cp => if |cp - mexc_mid| / mexc_mid < diff then some cp else some p
          | none => none
        else none
      else jp
    else jp
  else jp

/-- One `spreads[dex]` entry (lines 879-907): `d, r = self.calc_spread(...)`
plus the raw prices. -/
def mkDexBlock (cex_bid cex_ask : Option ℚ) (p : ℚ) : DexBlock :=
  let s := calc_spread cex_bid cex_ask (some p)
  { direct := s.1, reverse := s.2, dex_price := p, cex_bid := cex_bid, cex_ask := cex_ask }

/-- Pure core of `fetch_token_data`: the allow-list gating of the three DEX
fetches (lines 804-821), the Jupiter cross-validation (lines 855-877) and the
assembly of the Observation (lines 879-920).  `jupCache` is the
`_jupiter_price_cache` price for the token's mint; `jupiterFetched`,
`pancakeFetched`, `matchaFetched` are the results of the ungated client calls;
`cex_bid`/`cex_ask` come from the MEXC batch cache; `mexc_limit` from
`get_mexc_limit_usdt`. -/
def fetch_token_data (t : TokenCfg) (jupCache : Option ℚ)
    (cex_bid cex_ask : Option ℚ)
    (jupiterFetched pancakeFetched matchaFetched : Option ℚ)
    (mexc_limit : Option ℚ) (ts : ℚ) : Observation :=
  let allowed := allowedDexes t
  let jupiter0 := if "jupiter" ∈ allowed ∧ strTruthy t.jupiter_mint ∧ t.jupiter_decimals.isSome
                  then jupiterFetched else none
  let pancake := if "pancake" ∈ allowed ∧ strTruthy t.bsc_address then pancakeFetched else none
  let matcha := if "matcha" ∈ allowed ∧ strTruthy t.matcha_address then matchaFetched else none
  let jupiter := crossValidateJupiter (strTruthy t.jupiter_mint) jupCache cex_bid cex_ask jupiter0
  let spreads :=
    (if qTruthy pancake then [("pancake", mkDexBlock cex_bid cex_ask (pancake.getD 0))] else []) ++
    (if qTruthy jupiter then [("jupiter", mkDexBlock cex_bid cex_ask (jupiter.getD 0))] else []) ++
    (if qTruthy matcha then [("matcha", mkDexBlock cex_bid cex_ask (matcha.getD 0))] else [])
  { token_name := t.name, mexc_price := (cex_bid, cex_ask), mexc_limit := mexc_limit,
    spreads := spreads, timestamp := ts }

/-! ## Proxy manager (proxy_manager.py) -/

/-- `PROXY_MAX_FAILURES = 5`. -/
def PROXY_MAX_FAILURES : ℕ := 5

/-- One `proxies` row: the fields the health probe and the per-call markers
touch. -/
structure Proxy where
  id : ℕ
  fail_count : ℕ
  is_active : Bool
  last_used : Option ℚ
deriving DecidableEq

/-- The per-proxy database update of `check_all_proxies` (lines 259-275):
success resets `fail_count` to 0, activates and stamps `last_used`; failure
increments `fail_count` and deactivates once it reaches `PROXY_MAX_FAILURES`. -/
def probeUpdate (now : ℚ) (p : Proxy) (working : Bool) : Proxy :=
  if working then { p with fail_count := 0, is_active := true, last_used := some now }
  else
    let fc := p.fail_count + 1
    { p with fail_count := fc,
             is_active := if PROXY_MAX_FAILURES ≤ fc then false else p.is_active }

/-- `check_all_proxies` (lines 234-285): probe EVERY row of the `proxies`
table (`db.query(Proxy).all()`, active or not) and apply the per-proxy
update; `result pid` is whether the health check of proxy `pid` succeeded. -/
def check_all_proxies (now : ℚ) (result : ℕ → Bool) (proxies : List Proxy) : List Proxy :=
  proxies.map (fun p => probeUpdate now p (result p.id))

/-- `mark_proxy_failed` (lines 135-148): early-return when no current proxy,
otherwise only log — it does not update `fail_count` or deactivate.  Returns
the proxies table after the call. -/
def mark_proxy_failed (current : Option ℕ) (db : List Proxy) : List Proxy :=
  match current with
  | none => db
  | some _ => db

/-- `mark_proxy_success` (lines 150-160): stamp `last_used` of the current
proxy (looked up by id). -/
def mark_proxy_success (current : Option ℕ) (now : ℚ) (db : List Proxy) : List Proxy :=
  match current with
  | none => db
  | some pid => db.map (fun p => if p.id = pid then { p with last_used := some now } else p)

/-! ## Fan-out: `ConnectionManager.broadcast_update` (websocket_manager.py
lines 88-140) -/

/-- The envelopes produced by one `broadcast_update(data)` call, as a list of
`(subscriber, payload)` sends.  `allSubs` is `self._subscriptions["__all__"]`;
`subsOf tok` is `self._subscriptions[tok]`; subscribers are numbered.
"__all__" subscribers get the full `data`; every other subscriber that is
subscribed to at least one key of `data` gets `data` filtered to its
subscribed tokens, and only when that filter is non-empty. -/
def broadcast_update (allSubs : List ℕ) (subsOf : String → List ℕ)
    (data : List (String × Observation)) : List (ℕ × List (String × Observation)) :=
  if data = [] then []
  else
    (allSubs.map (fun ws => (ws, data))) ++
    (((data.map Prod.fst).flatMap subsOf).dedup.filterMap (fun ws =>
      if ws ∈ allSubs then none
      else
        let fd := data.filter (fun kv => decide (ws ∈ subsOf kv.1))
        if fd = [] then none else some (ws, fd)))

/-! ## Helper lemmas -/

/-- A successful `jupiterFallback` result is above the floor. -/
theorem jupiterFallback_floor (c? : Option ℚ) (p : ℚ)
    (h : jupiterFallback c? = some p) : jupiterFloor ≤ p := by
  cases c? with
  | none => simp [jupiterFallback] at h
  | some c =>
    simp only [jupiterFallback] at h
    by_cases hc : jupiterFloor < c
    · rw [if_pos hc] at h
      cases h
      exact le_of_lt hc
    · rw [if_neg hc] at h
      exact absurd h (by simp)

/-- Floor invariant of the Jupiter response processing: given all cached
prices are at least the floor, both the returned price and the written cache
entry are at least the floor. -/
theorem jupiterProcess_floor (cache : Option (ℚ × ℚ)) (now : ℚ) (d : ℕ) (r : JupResp)
    (hinv : ∀ c t, cache = some (c, t) → jupiterFloor ≤ c) :
    (∀ p, (jupiterProcess cache now d r).1 = some p → jupiterFloor ≤ p) ∧
    (∀ c t, (jupiterProcess cache now d r).2 = some (c, t) → jupiterFloor ≤ c) := by
  unfold jupiterProcess
  cases hr : r.outAmount with
  | none => exact ⟨by simp, fun c t h => hinv c t h⟩
  | some n =>
    simp only
    split_ifs with h1 h2 h3 h4
    · exact ⟨fun p hp => jupiterFallback_floor _ p hp, fun c t h => hinv c t h⟩
    · exact ⟨by simp, fun c t h => hinv c t h⟩
    · exact ⟨by simp, fun c t h => hinv c t h⟩
    · exact ⟨fun p hp => jupiterFallback_floor _ p hp, fun c t h => hinv c t h⟩
    · constructor
      · intro p hp
        simp only [Option.some.injEq] at hp
        subst hp
        exact not_lt.mp h4
      · intro c t h
        simp only [Option.some.injEq, Prod.mk.injEq] at h
        exact h.1 ▸ not_lt.mp h4

/-- Floor invariant of the whole `get_jupiter_price_usdt` call (cache-hit,
failure and fetched paths). -/
theorem jupiter_floor_helper (mint : String) (cache : Option (ℚ × ℚ)) (now : ℚ)
    (d : ℕ) (resp : Option JupResp)
    (hinv : ∀ c t, cache = some (c, t) → jupiterFloor ≤ c) :
    (∀ p, (get_jupiter_price_usdt mint cache now d resp).1 = some p → jupiterFloor ≤ p) ∧
    (∀ c t, (get_jupiter_price_usdt mint cache now d resp).2 = some (c, t) → jupiterFloor ≤ c) := by
  unfold get_jupiter_price_usdt
  split_ifs with h1 h2
  · exact ⟨by simp, fun c t h => hinv c t h⟩
  · constructor
    · intro p hp
      cases hc : cache with
      | none => rw [hc] at hp; simp at hp
      | some ct =>
        rw [hc] at hp
        simp only [Option.map_some] at hp
        cases hp
        exact hinv _ ct.2 (by rw [hc])
    · exact fun c t h => hinv c t h
  · cases resp with
    | none => exact ⟨by simp, fun c t h => hinv c t h⟩
    | some r => exact jupiterProcess_floor cache now d r hinv

/-- Membership in a conditional singleton. -/
theorem mem_ite_singleton {α : Type} {c : Prop} [Decidable c] {x blk : α}
    (h : blk ∈ if c then [x] else ([] : List α)) : c ∧ blk = x := by
  split_ifs at h with hc
  · exact ⟨hc, List.mem_singleton.mp h⟩
  · cases h

/-- A truthy optional rational is a non-zero `some`. -/
theorem qTruthy_some {o : Option ℚ} (h : qTruthy o = true) : ∃ v, o = some v ∧ v ≠ 0 := by
  cases o with
  | none => simp [qTruthy] at h
  | some x => exact ⟨x, rfl, by simpa [qTruthy] using h⟩

/-- `pickBest` returns an element of its input list. -/
theorem pickBest_mem (ps : List DexPair) (b : DexPair) (h : pickBest ps = some b) : b ∈ ps := by
  induction ps with
  | nil => cases h
  | cons p rest ih =>
    cases hr : pickBest rest with
    | none =>
      simp only [pickBest, hr, Option.some.injEq] at h
      subst h
      exact List.mem_cons_self ..
    | some q =>
      simp only [pickBest, hr] at h
      split_ifs at h with hlt
      · simp only [Option.some.injEq] at h
        subst h
        exact List.mem_cons_of_mem _ (ih hr)
      · simp only [Option.some.injEq] at h
        subst h
        exact List.mem_cons_self ..

/-- A pair surviving the DexScreener filter has a price in `(0, 10⁶]`. -/
theorem pairValid_bounds (q : DexPair) (hq : pairValid q = true) (v : ℚ)
    (hv : q.priceUsd = some v) : 0 < v ∧ v ≤ 1000000 := by
  unfold pairValid at hq
  rw [hv] at hq
  simp only [Bool.and_eq_true, decide_eq_true_eq] at hq
  exact ⟨hq.1.1, hq.1.2⟩

/-- Every price the pancake client returns is positive and at most `10⁶`. -/
theorem get_pancake_price_bounds (pairs : List DexPair) (p : ℚ)
    (h : get_pancake_price_usdt pairs = some p) : 0 < p ∧ p ≤ 1000000 := by
  by_cases hnil : pairs = []
  · simp [get_pancake_price_usdt, hnil] at h
  · simp only [get_pancake_price_usdt, if_neg hnil] at h
    cases h1 : pickBest ((pairs.filter pairValid).filter (fun q => q.isPancakeDex)) with
    | some best =>
      simp only [h1] at h
      have hmem := pickBest_mem _ _ h1
      have hval : pairValid best = true :=
        (List.mem_filter.mp (List.mem_of_mem_filter hmem)).2
      exact pairValid_bounds best hval p h
    | none =>
      simp only [h1] at h
      cases h2 : pickBest (pairs.filter pairValid) with
      | some best =>
        simp only [h2] at h
        have hmem := pickBest_mem _ _ h2
        have hval : pairValid best = true := (List.mem_filter.mp hmem).2
        exact pairValid_bounds best hval p h
      | none => simp [h2] at h

/-- Every price the matcha client computes is positive. -/
theorem matchaPrice_pos (d : ℕ) (raw : ℤ) (p : ℚ) (h : matchaPrice d raw = some p) : 0 < p := by
  simp only [matchaPrice] at h
  split_ifs at h with h1 h2
  · simp only [Option.some.injEq] at h
    subst h
    have hta : 0 < (raw : ℚ) / 10 ^ d := not_le.mp h2
    have hm : (0 : ℚ) < MATCHA_USDT_AMOUNT := by norm_num [MATCHA_USDT_AMOUNT]
    exact div_pos hm hta

/-- The cross-validation yields the fresh price unchanged, no price at all, or
the cached price. -/
theorem crossValidateJupiter_cases (m : Bool) (cached : Option ℚ) (bid ask jp : Option ℚ) :
    crossValidateJupiter m cached bid ask jp = jp ∨
    crossValidateJupiter m cached bid ask jp = none ∨
    (∃ cp, cached = some cp ∧ crossValidateJupiter m cached bid ask jp = some cp) := by
  simp only [crossValidateJupiter]
  split_ifs with hq h1 h2 h3
  · have hjq : qTruthy jp = true := by
      simp only [Bool.and_eq_true] at hq
      exact hq.1.1
    have hjp : jp = some (jp.getD 0) := by
      cases jp with
      | none => simp [qTruthy] at hjq
      | some x => rfl
    cases cached with
    | none => right; left; rfl
    | some cp =>
      dsimp only
      split_ifs with h4
      · right; right; exact ⟨cp, rfl, rfl⟩
      · left; exact hjp.symm
  · right; left; rfl
  · left; rfl
  · left; rfl
  · left; rfl

/-- A `some` result of the cross-validation is the fresh price or the cached
price. -/
theorem crossValidateJupiter_some (m : Bool) (cached bid ask jp : Option ℚ) (v : ℚ)
    (h : crossValidateJupiter m cached bid ask jp = some v) :
    jp = some v ∨ cached = some v := by
  rcases crossValidateJupiter_cases m cached bid ask jp with hc | hc | ⟨cp, hcp, hc⟩
  · left
    rw [← hc]
    exact h
  · rw [hc] at h
    cases h
  · right
    rw [h] at hc
    injection hc with hh
    rw [hh]
    exact hcp

/-- Evaluation of the cross-validation in the anomalous case (`mint` truthy,
both CEX sides truthy, positive mid, relative difference above one half). -/
theorem crossValidateJupiter_anomalous (cached : Option ℚ) (b a p : ℚ)
    (hb : b ≠ 0) (ha : a ≠ 0) (hp : p ≠ 0)
    (hmid : 0 < (b + a) / 2)
    (hdiff : 1 / 2 < |p - (b + a) / 2| / ((b + a) / 2)) :
    crossValidateJupiter true cached (some b) (some a) (some p) =
      match cached with
      | some cp =>
        if |cp - (b + a) / 2| / ((b + a) / 2) < |p - (b + a) / 2| / ((b + a) / 2)
        then some cp else some p
      | none => none := by
  have hq : (qTruthy (some p) && qTruthy (some b) && qTruthy (some a)) = true := by
    simp [qTruthy, hp, hb, ha]
  simp only [crossValidateJupiter, hq, Option.getD_some, if_true]
  rw [if_pos hmid, if_pos hdiff]

/-- In a duplicate-free list containing `ws`, exactly one element equals
`ws`. -/
theorem filter_eq_length_one (ws : ℕ) (l : List ℕ) (hnd : l.Nodup) (hmem : ws ∈ l) :
    (l.filter (fun a => decide (a = ws))).length = 1 := by
  induction l with
  | nil => cases hmem
  | cons a rest ih =>
    rcases List.mem_cons.mp hmem with rfl | hmem2
    · have hrest : ws ∉ rest := (List.nodup_cons.mp hnd).1
      have hz : rest.filter (fun x => decide (x = ws)) = [] := by
        rw [List.filter_eq_nil_iff]
        intro x hx
        simp only [decide_eq_true_eq]
        rintro rfl
        exact hrest hx
      simp [List.filter_cons, hz]
    · have ha : ¬ (a = ws) := by
        rintro rfl
        exact (List.nodup_cons.mp hnd).1 hmem2
      have := ih (List.nodup_cons.mp hnd).2 hmem2
      simp [List.filter_cons, ha, this]

/-- Filtering the "__all__" sends of `broadcast_update` for one subscriber. -/
theorem map_pair_filter (ws : ℕ) (l : List ℕ) (data : List (String × Observation)) :
    ((l.map (fun a => (a, data))).filter (fun s => decide (s.1 = ws))).length =
    (l.filter (fun a => decide (a = ws))).length := by
  induction l with
  | nil => rfl
  | cons a rest ih =>
    by_cases h : a = ws <;> simp [List.filter_cons, h, ih]

/-- The attempt counter never exceeds the length of the outcome list. -/
theorem runAttempts_count_le (l : List (Option ℚ)) : (runAttempts l).2 ≤ l.length := by
  induction l with
  | nil => simp [runAttempts]
  | cons o rest ih =>
    cases o with
    | none => simpa [runAttempts] using ih
    | some a => simp [runAttempts]

/-! ## Claim theorems -/

/-- Claim C2: for every `calc_spread` call with `dex_price > 0`,
`direct_spread = (cex_bid - dex_price) / dex_price * 100` when `cex_bid > 0`
and is null when the bid is missing or non-positive; symmetrically
`reverse_spread = (dex_price - cex_ask) / cex_ask * 100`; with
`dex_price ≤ 0` both spreads are null; and every non-null spread implies the
positivity of its CEX side and of `dex_price`. -/
theorem c2_calc_spread (bid ask : Option ℚ) (dp : ℚ) :
    (0 < dp →
      (∀ b, bid = some b → 0 < b →
        (calc_spread bid ask (some dp)).1 = some ((b - dp) / dp * 100)) ∧
      ((bid = none ∨ ∃ b, bid = some b ∧ b ≤ 0) → (calc_spread bid ask (some dp)).1 = none) ∧
      (∀ a, ask = some a → 0 < a →
        (calc_spread bid ask (some dp)).2 = some ((dp - a) / a * 100)) ∧
      ((ask = none ∨ ∃ a, ask = some a ∧ a ≤ 0) → (calc_spread bid ask (some dp)).2 = none)) ∧
    (dp ≤ 0 → calc_spread bid ask (some dp) = (none, none)) ∧
    ((calc_spread bid ask (some dp)).1 ≠ none → (∃ b, bid = some b ∧ 0 < b) ∧ 0 < dp) ∧
    ((calc_spread bid ask (some dp)).2 ≠ none → (∃ a, ask = some a ∧ 0 < a) ∧ 0 < dp) := by
  by_cases hdp : dp ≤ 0
  · refine ⟨fun h => absurd hdp (not_le.mpr h), fun _ => by simp [calc_spread, hdp], ?_, ?_⟩
    · simp [calc_spread, hdp]
    · simp [calc_spread, hdp]
  · have hdp' : 0 < dp := not_le.mp hdp
    refine ⟨fun _ => ⟨?_, ?_, ?_, ?_⟩, fun h => absurd h hdp, ?_, ?_⟩
    · rintro b rfl hb
      simp [calc_spread, hdp, hb]
    · rintro (rfl | ⟨b, rfl, hb⟩)
      · simp [calc_spread, hdp]
      · simp [calc_spread, hdp, not_lt.mpr hb]
    · rintro a rfl ha
      simp [calc_spread, hdp, ha]
    · rintro (rfl | ⟨a, rfl, ha⟩)
      · simp [calc_spread, hdp]
      · simp [calc_spread, hdp, not_lt.mpr ha]
    · intro h
      refine ⟨?_, hdp'⟩
      cases bid with
      | none => simp [calc_spread, hdp] at h
      | some b =>
        by_cases hb : 0 < b
        · exact ⟨b, rfl, hb⟩
        · simp [calc_spread, hdp, hb] at h
    · intro h
      refine ⟨?_, hdp'⟩
      cases ask with
      | none => simp [calc_spread, hdp] at h
      | some a =>
        by_cases ha : 0 < a
        · exact ⟨a, rfl, ha⟩
        · simp [calc_spread, hdp, ha] at h

/-- Closed witness for C2 at `bid = 2`, `ask = 3`, `dex_price = 1`. -/
theorem c2_calc_spread_witness :
    (calc_spread (some 2) (some 3) (some 1)).1 = some ((2 - 1) / 1 * 100) :=
  ((c2_calc_spread (some 2) (some 3) 1).1 (by norm_num)).1 2 rfl (by norm_num)

/-- Claim C5: the health probe processes every proxy regardless of `active`;
a successful probe resets `fail_count` to 0, activates and stamps
`last_used`; a failed probe increments `fail_count` and sets `active := false`
exactly when the incremented count reaches the threshold 5 (below it the flag
is left unchanged); hence after a successful probe `fail_count = 0` and
`is_active = true`. -/
theorem c5_health_probe (now : ℚ) (result : ℕ → Bool) (ps : List Proxy) :
    (check_all_proxies now result ps).length = ps.length ∧
    (∀ i : ℕ, (check_all_proxies now result ps)[i]? =
      (ps[i]?).map (fun p => probeUpdate now p (result p.id))) ∧
    (∀ p, probeUpdate now p true =
      { id := p.id, fail_count := 0, is_active := true, last_used := some now }) ∧
    (∀ p, (probeUpdate now p false).fail_count = p.fail_count + 1) ∧
    (∀ p, PROXY_MAX_FAILURES ≤ p.fail_count + 1 → (probeUpdate now p false).is_active = false) ∧
    (∀ p, p.fail_count + 1 < PROXY_MAX_FAILURES →
      (probeUpdate now p false).is_active = p.is_active) ∧
    (∀ p, (probeUpdate now p true).fail_count = 0 ∧ (probeUpdate now p true).is_active = true) := by
  refine ⟨by simp [check_all_proxies], ?_, ?_, ?_, ?_, ?_, ?_⟩
  · intro i
    simp [check_all_proxies]
  · intro p
    simp [probeUpdate]
  · intro p
    simp [probeUpdate]
  · intro p h
    simp [probeUpdate, h]
  · intro p h
    simp [probeUpdate, not_le.mpr h]
  · intro p
    simp [probeUpdate]

/-- Closed witness for C5: a 4-failure proxy is deactivated by the 5th
failure, and a successful probe leaves a zero count and an active flag. -/
theorem c5_health_probe_witness :
    (probeUpdate 7 ⟨1, 4, true, none⟩ false).is_active = false ∧
    ((probeUpdate 7 ⟨2, 3, false, none⟩ true).fail_count = 0 ∧
      (probeUpdate 7 ⟨2, 3, false, none⟩ true).is_active = true) :=
  ⟨(c5_health_probe 7 (fun _ => false) []).2.2.2.2.1 ⟨1, 4, true, none⟩ (by norm_num [PROXY_MAX_FAILURES]),
   (c5_health_probe 7 (fun _ => false) []).2.2.2.2.2.2 ⟨2, 3, false, none⟩⟩

/-- Claim C6: the per-call failure path `mark_proxy_failed` leaves the
persisted proxies table unchanged — every proxy's `fail_count` and
`is_active` are identical before and after — while even the success path
`mark_proxy_success` only stamps `last_used`, never `fail_count` or
`is_active`. -/
theorem c6_mark_proxy_failed_frame (current : Option ℕ) (now : ℚ) (db : List Proxy) :
    mark_proxy_failed current db = db ∧
    (mark_proxy_success current now db).map (fun p => (p.id, p.fail_count, p.is_active)) =
      db.map (fun p => (p.id, p.fail_count, p.is_active)) := by
  constructor
  · cases current <;> rfl
  · cases current with
    | none => rfl
    | some pid =>
      simp only [mark_proxy_success, List.map_map]
      induction db with
      | nil => rfl
      | cons p rest ih =>
        simp only [List.map_cons, Function.comp_apply, ih]
        split_ifs <;> rfl

/-- Claim C9 (amended): the CEX-batch, DEX-B (pancake) and DEX-A (jupiter)
clients make at most 2 request attempts per price call; the DEX-C (matcha)
client has a default retry budget of 3 attempts. -/
theorem c9_retry_budget (outcomes : ℕ → Option ℚ) :
    clientAttemptCount MEXC_BATCH_DEFAULT_RETRIES outcomes ≤ 2 ∧
    clientAttemptCount PANCAKE_DEFAULT_RETRIES outcomes ≤ 2 ∧
    clientAttemptCount JUPITER_DEFAULT_RETRIES outcomes ≤ 2 ∧
    clientAttemptCount MATCHA_DEFAULT_RETRIES outcomes ≤ 3 := by
  have h : ∀ m : ℕ, clientAttemptCount m outcomes ≤ m := by
    intro m
    have := runAttempts_count_le ((List.range m).map outcomes)
    simpa [clientAttemptCount] using this
  exact ⟨h 2, h 2, h 2, h 3⟩

/-- Counterexample to C9 as stated: the matcha client's budget is 3, so with
every attempt failing it makes 3 request attempts, not at most 2. -/
theorem c9_counterexample :
    clientAttemptCount MATCHA_DEFAULT_RETRIES (fun _ => none) = 3 ∧ ¬ (3 : ℕ) ≤ 2 := by
  constructor
  · rfl
  · decide

/-- Claim C7: the Jupiter client rejects quotes with `priceImpact > 100` and
quotes whose computed absolute price falls below the `10⁻⁷` floor; in both
cases it answers with the cached per-mint price when that cache value exists
and exceeds the floor, and with no price otherwise (the cache is left
unchanged). -/
theorem c7_jupiter_anomaly (cache : Option (ℚ × ℚ)) (now : ℚ) (d : ℕ) (r : JupResp) :
    (∀ n, r.outAmount = some n → 100 < r.priceImpact →
      jupiterProcess cache now d r = (jupiterFallback (cache.map Prod.fst), cache)) ∧
    (∀ n, r.outAmount = some n → ¬ 100 < r.priceImpact → 0 < n →
      JUPITER_USDT_AMOUNT / ((n : ℚ) / 10 ^ d) < jupiterFloor →
      jupiterProcess cache now d r = (jupiterFallback (cache.map Prod.fst), cache)) ∧
    (∀ c, jupiterFloor < c → jupiterFallback (some c) = some c) ∧
    (∀ c, c ≤ jupiterFloor → jupiterFallback (some c) = none) ∧
    jupiterFallback none = none := by
  refine ⟨?_, ?_, ?_, ?_, rfl⟩
  · rintro n hn himp
    simp [jupiterProcess, hn, himp]
  · rintro n hn himp hpos hlow
    have h1 : ¬ n ≤ 0 := not_le.mpr hpos
    have hn0 : (0 : ℚ) < (n : ℚ) := by exact_mod_cast hpos
    have h2 : ¬ ((n : ℚ) / 10 ^ d) ≤ 0 := by
      push_neg
      positivity
    simp [jupiterProcess, hn, himp, h1, h2, hlow]
  · intro c hc
    simp [jupiterFallback, hc]
  · intro c hc
    simp [jupiterFallback, not_lt.mpr hc]

/-- Closed witness for C7: a 200% price impact quote falls back to the cached
price `1`. -/
theorem c7_jupiter_anomaly_witness :
    jupiterProcess (some (1, 0)) 5 6 ⟨some 1, 200⟩ = (some 1, some (1, 0)) := by
  have h := (c7_jupiter_anomaly (some (1, 0)) 5 6 ⟨some 1, 200⟩).1 1 rfl (by norm_num)
  rw [h]
  norm_num [jupiterFallback, jupiterFloor]

/-- Claim C10: assuming every cached per-mint price is at least `10⁻⁷`, every
non-`none` price returned by `get_jupiter_price_usdt` is at least `10⁻⁷`, and
the cache entry after the call (in particular each fresh write) again holds a
price at least `10⁻⁷`. -/
theorem c10_jupiter_floor (mint : String) (cache : Option (ℚ × ℚ)) (now : ℚ)
    (d : ℕ) (resp : Option JupResp)
    (hinv : ∀ c t, cache = some (c, t) → jupiterFloor ≤ c) :
    (∀ p, (get_jupiter_price_usdt mint cache now d resp).1 = some p → jupiterFloor ≤ p) ∧
    (∀ c t, (get_jupiter_price_usdt mint cache now d resp).2 = some (c, t) → jupiterFloor ≤ c) :=
  jupiter_floor_helper mint cache now d resp hinv

/-- Closed witness for C10: a fresh fetch with `outAmount = 1`, `decimals = 0`
returns price 100 and caches it; both are above the floor. -/
theorem c10_jupiter_floor_witness :
    (get_jupiter_price_usdt "M" none 0 0 (some ⟨some 1, 0⟩)).1 = some 100 ∧
    jupiterFloor ≤ 100 ∧ jupiterFloor ≤ (100 : ℚ) := by
  have heval : get_jupiter_price_usdt "M" none 0 0 (some ⟨some 1, 0⟩) =
      (some 100, some (100, 0)) := by
    have h1 : ((pyStrip "M").isEmpty) = false := by decide
    simp [get_jupiter_price_usdt, h1, cacheFresh, jupiterProcess, JUPITER_USDT_AMOUNT,
      jupiterFloor]
    norm_num
  refine ⟨by rw [heval], ?_, ?_⟩
  · exact (c10_jupiter_floor "M" none 0 0 (some ⟨some 1, 0⟩) (by intro c t h; cases h)).1 100
      (by rw [heval])
  · exact (c10_jupiter_floor "M" none 0 0 (some ⟨some 1, 0⟩) (by intro c t h; cases h)).2 100 0
      (by rw [heval])

/-- Counterexample to C1 as stated: with `bid = ask = 1` (mid 1) and a fresh
DEX-A price 2 (`delta = 1 > 0.5`), a cached quote 2 that is exactly as far
from mid is NOT dropped — the engine keeps the fresh price. -/
theorem c1_counterexample :
    ((1 : ℚ) / 2 < |(2 : ℚ) - (1 + 1) / 2| / (((1 : ℚ) + 1) / 2)) ∧
    ¬ (|(2 : ℚ) - (1 + 1) / 2| / (((1 : ℚ) + 1) / 2) <
       |(2 : ℚ) - (1 + 1) / 2| / (((1 : ℚ) + 1) / 2)) ∧
    crossValidateJupiter true (some 2) (some 1) (some 1) (some 2) = some 2 := by
  refine ⟨by norm_num, by norm_num, ?_⟩
  have heval := crossValidateJupiter_anomalous (some 2) 1 1 2 (by norm_num) (by norm_num)
    (by norm_num) (by norm_num) (by norm_num)
  rw [heval]
  dsimp only
  rw [if_neg (by norm_num)]

/-- Claim C1 (amended): with both CEX sides truthy, a positive mid and a
fresh DEX-A price differing from mid by more than 50%: a cached quote
strictly closer to mid is substituted; with no cached quote the price is
dropped; a cached quote that is not strictly closer leaves the fresh price
in place (it is not dropped). -/
theorem c1_cross_validation (cached : Option ℚ) (b a p : ℚ)
    (hb : b ≠ 0) (ha : a ≠ 0) (hp : p ≠ 0)
    (hmid : 0 < (b + a) / 2)
    (hdiff : 1 / 2 < |p - (b + a) / 2| / ((b + a) / 2)) :
    (∀ cp, cached = some cp →
      |cp - (b + a) / 2| / ((b + a) / 2) < |p - (b + a) / 2| / ((b + a) / 2) →
      crossValidateJupiter true cached (some b) (some a) (some p) = some cp) ∧
    (cached = none → crossValidateJupiter true cached (some b) (some a) (some p) = none) ∧
    (∀ cp, cached = some cp →
      ¬ |cp - (b + a) / 2| / ((b + a) / 2) < |p - (b + a) / 2| / ((b + a) / 2) →
      crossValidateJupiter true cached (some b) (some a) (some p) = some p) := by
  have heval := crossValidateJupiter_anomalous cached b a p hb ha hp hmid hdiff
  refine ⟨?_, ?_, ?_⟩
  · rintro cp rfl hlt
    rw [heval]
    dsimp only
    rw [if_pos hlt]
  · rintro rfl
    rw [heval]
  · rintro cp rfl hnlt
    rw [heval]
    dsimp only
    rw [if_neg hnlt]

/-- Closed witness for the amended C1: cached quote 1 (distance 0 from mid 1)
is substituted for the anomalous fresh price 2. -/
theorem c1_cross_validation_witness :
    crossValidateJupiter true (some 1) (some 1) (some 1) (some 2) = some 1 :=
  (c1_cross_validation (some 1) 1 1 2 (by norm_num) (by norm_num) (by norm_num)
    (by norm_num) (by norm_num)).1 1 rfl (by norm_num)

/-- Counterexample to C3 as stated: a matcha quote of `buyAmount = 1` at 6
decimals yields `dex_price = 10⁸`, emitted in the Observation although
`10⁸ ≥ 10⁶` (only the DEX-B client bounds its price by `10⁶`). -/
theorem c3_counterexample :
    matchaPrice 6 1 = some 100000000 ∧
    ((fetch_token_data ⟨"T2-USDT", "T2", "USDT", ["matcha"], none, none, none,
        some "0xm", some 6, none⟩
        none none none none none (matchaPrice 6 1) none 0).spreads.map
      (fun blk => blk.2.dex_price)) = [100000000] ∧
    ¬ ((100000000 : ℚ) < 1000000) := by
  have hm : matchaPrice 6 1 = some 100000000 := by
    norm_num [matchaPrice, MATCHA_USDT_AMOUNT]
  have h0 : "0xm".isEmpty = false := rfl
  have hne : ¬ ((100000000 : ℚ) = 0) := by norm_num
  refine ⟨hm, ?_, by norm_num⟩
  simp [fetch_token_data, allowedDexes, strTruthy, qTruthy, crossValidateJupiter, hm,
    mkDexBlock, h0, hne]

/-- Claim C3 (amended): every per-DEX block emitted by `fetch_token_data` has
`dex_price > 0`, provided each fetched price came from its client (pancake
from the DexScreener selection, jupiter from `get_jupiter_price_usdt` over a
floor-respecting cache, matcha from the quote conversion); the upper bound
`10⁶` holds only for the pancake block, and there non-strictly
(`dex_price ≤ 10⁶`). -/
theorem c3_dex_price_bounds (t : TokenCfg) (jupCache cex_bid cex_ask jf pf mf lim : Option ℚ)
    (ts : ℚ)
    (hpf : ∃ pairs, pf = get_pancake_price_usdt pairs)
    (hjf : ∃ mint c now d resp, (∀ cp tt, c = some (cp, tt) → jupiterFloor ≤ cp) ∧
      jf = (get_jupiter_price_usdt mint c now d resp).1)
    (hmf : ∃ d raw, mf = matchaPrice d raw)
    (hcache : ∀ c, jupCache = some c → jupiterFloor ≤ c) :
    ∀ blk ∈ (fetch_token_data t jupCache cex_bid cex_ask jf pf mf lim ts).spreads,
      0 < blk.2.dex_price ∧ (blk.1 = "pancake" → blk.2.dex_price ≤ 1000000) := by
  obtain ⟨pairs, hpf⟩ := hpf
  obtain ⟨mint, cc, nw, dd, resp, hinv, hjf⟩ := hjf
  obtain ⟨dm, raw, hmf⟩ := hmf
  have hjprop : ∀ q, jf = some q → jupiterFloor ≤ q := by
    intro q hq
    refine (jupiter_floor_helper mint cc nw dd resp hinv).1 q ?_
    rw [← hjf]
    exact hq
  have hfl : (0 : ℚ) < jupiterFloor := by norm_num [jupiterFloor]
  intro blk hblk
  simp only [fetch_token_data] at hblk
  rcases List.mem_append.mp hblk with hblk2 | hmatcha
  · rcases List.mem_append.mp hblk2 with hpan | hjup
    · obtain ⟨hcond, rfl⟩ := mem_ite_singleton hpan
      simp only [mkDexBlock]
      split_ifs at hcond ⊢ with hg
      · obtain ⟨v, hv, hvne⟩ := qTruthy_some hcond
        rw [hv]
        simp only [Option.getD_some]
        have hbnd := get_pancake_price_bounds pairs v (by rw [← hpf]; exact hv)
        exact ⟨hbnd.1, fun _ => hbnd.2⟩
      · simp [qTruthy] at hcond
    · obtain ⟨hcond, rfl⟩ := mem_ite_singleton hjup
      simp only [mkDexBlock]
      obtain ⟨v, hv, hvne⟩ := qTruthy_some hcond
      rw [hv]
      simp only [Option.getD_some]
      refine ⟨?_, fun hx => absurd hx (by decide)⟩
      rcases crossValidateJupiter_some _ _ _ _ _ v hv with hjv | hjv
      · split_ifs at hjv with hg2
        exact lt_of_lt_of_le hfl (hjprop v hjv)
      · exact lt_of_lt_of_le hfl (hcache v hjv)
  · obtain ⟨hcond, rfl⟩ := mem_ite_singleton hmatcha
    simp only [mkDexBlock]
    split_ifs at hcond ⊢ with hg
    · obtain ⟨v, hv, hvne⟩ := qTruthy_some hcond
      rw [hv]
      simp only [Option.getD_some]
      refine ⟨?_, fun hx => absurd hx (by decide)⟩
      exact matchaPrice_pos dm raw v (by rw [← hmf]; exact hv)
    · simp [qTruthy] at hcond

/-- Closed witness for the amended C3: the matcha block of the
counterexample's run has a positive price. -/
theorem c3_dex_price_bounds_witness :
    0 < (mkDexBlock none none 100000000).dex_price := by
  have hm : matchaPrice 6 1 = some 100000000 := by
    norm_num [matchaPrice, MATCHA_USDT_AMOUNT]
  have h0 : "0xm".isEmpty = false := rfl
  have hne : ¬ ((100000000 : ℚ) = 0) := by norm_num
  have happ := c3_dex_price_bounds
    ⟨"T-USDT", "T", "USDT", ["matcha"], none, none, none, some "0xm", some 6, none⟩
    none none none ((get_jupiter_price_usdt "" none 0 0 none).1) (get_pancake_price_usdt [])
    (matchaPrice 6 1) none 0
    ⟨[], rfl⟩ ⟨"", none, 0, 0, none, ⟨(by rintro cp tt h; cases h), rfl⟩⟩ ⟨6, 1, rfl⟩
    (by rintro c h; cases h)
  refine (happ ("matcha", mkDexBlock none none 100000000) ?_).1
  simp [fetch_token_data, allowedDexes, strTruthy, qTruthy, crossValidateJupiter, hm,
    mkDexBlock, h0, hne]

/-- Counterexample to C4 as stated: a token with an empty `dex_allow_list`
and all routing fields present gets ALL THREE DEXes enabled (the empty list
falls into the defaults branch), so a fetched pancake price DOES produce a
DEX block. -/
theorem c4_counterexample :
    allowedDexes ⟨"T-USDT", "T", "USDT", [], some "Mint", some 6, some "0xb",
        some "0xm", some 18, none⟩ = ["pancake", "jupiter", "matcha"] ∧
    (fetch_token_data ⟨"T-USDT", "T", "USDT", [], some "Mint", some 6, some "0xb",
        some "0xm", some 18, none⟩
        none (some 1) (some 2) none (some 5) none none 0).spreads ≠ [] := by
  have h1 : "0xb".isEmpty = false := rfl
  have h2 : "Mint".isEmpty = false := rfl
  have h3 : "0xm".isEmpty = false := rfl
  have hne : ¬ ((5 : ℚ) = 0) := by norm_num
  constructor
  · simp [allowedDexes, strTruthy, h1, h2, h3]
  · simp [fetch_token_data, allowedDexes, strTruthy, qTruthy, crossValidateJupiter,
      mkDexBlock, h1, h2, h3, hne]

/-- Claim C4 (amended): an empty `dex_allow_list` behaves like an unset one —
with all routing fields present every DEX is enabled; the Observation keeps
the CEX sides and contains a pancake block and a matcha block whenever that
client returned a non-zero price, and a jupiter block whenever the
cross-validated jupiter price (which may substitute or drop the client's
fresh quote) is non-zero (rather than containing no DEX blocks at all). -/
theorem c4_empty_allow_list (t : TokenCfg) (jupCache cex_bid cex_ask jf pf mf lim : Option ℚ)
    (ts : ℚ) (hdx : t.dexes = []) (hb : strTruthy t.bsc_address = true)
    (hj : strTruthy t.jupiter_mint = true) (hm : strTruthy t.matcha_address = true) :
    allowedDexes t = ["pancake", "jupiter", "matcha"] ∧
    (fetch_token_data t jupCache cex_bid cex_ask jf pf mf lim ts).mexc_price =
      (cex_bid, cex_ask) ∧
    (∀ p, pf = some p → p ≠ 0 →
      ("pancake", mkDexBlock cex_bid cex_ask p) ∈
        (fetch_token_data t jupCache cex_bid cex_ask jf pf mf lim ts).spreads) ∧
    (∀ p, mf = some p → p ≠ 0 →
      ("matcha", mkDexBlock cex_bid cex_ask p) ∈
        (fetch_token_data t jupCache cex_bid cex_ask jf pf mf lim ts).spreads) ∧
    (∀ p, t.jupiter_decimals.isSome = true →
      crossValidateJupiter true jupCache cex_bid cex_ask jf = some p → p ≠ 0 →
      ("jupiter", mkDexBlock cex_bid cex_ask p) ∈
        (fetch_token_data t jupCache cex_bid cex_ask jf pf mf lim ts).spreads) := by
  have hall : allowedDexes t = ["pancake", "jupiter", "matcha"] := by
    simp [allowedDexes, hdx, hb, hj, hm]
  refine ⟨hall, rfl, ?_, ?_, ?_⟩
  · intro p hp hpne
    simp [fetch_token_data, hall, hb, hp, hpne, qTruthy]
  · intro p hp hpne
    simp [fetch_token_data, hall, hm, hp, hpne, qTruthy]
  · intro p hd hcv hpne
    simp [fetch_token_data, hall, hj, hd, hcv, hpne, qTruthy]

/-- Closed witness for the amended C4: one concrete run yields all three
blocks (the jupiter price 2 survives cross-validation: its relative
difference from mid 3/2 is 1/3 ≤ 0.5). -/
theorem c4_empty_allow_list_witness :
    ("pancake", mkDexBlock (some 1) (some 2) 5) ∈
      (fetch_token_data ⟨"W-USDT", "W", "USDT", [], some "Mint", some 6, some "0xb",
          some "0xm", some 18, none⟩
        none (some 1) (some 2) (some 2) (some 5) (some 7) none 0).spreads ∧
    ("matcha", mkDexBlock (some 1) (some 2) 7) ∈
      (fetch_token_data ⟨"W-USDT", "W", "USDT", [], some "Mint", some 6, some "0xb",
          some "0xm", some 18, none⟩
        none (some 1) (some 2) (some 2) (some 5) (some 7) none 0).spreads ∧
    ("jupiter", mkDexBlock (some 1) (some 2) 2) ∈
      (fetch_token_data ⟨"W-USDT", "W", "USDT", [], some "Mint", some 6, some "0xb",
          some "0xm", some 18, none⟩
        none (some 1) (some 2) (some 2) (some 5) (some 7) none 0).spreads := by
  have hcv : crossValidateJupiter true none (some 1) (some 2) (some 2) = some 2 := by
    have hq : (qTruthy (some (2 : ℚ)) && qTruthy (some (1 : ℚ)) && qTruthy (some (2 : ℚ)))
        = true := by
      norm_num [qTruthy]
    simp only [crossValidateJupiter, hq, Option.getD_some, if_true]
    rw [if_pos (by norm_num : (0 : ℚ) < (1 + 2) / 2),
      if_neg (by rw [abs_of_nonneg (by norm_num : (0 : ℚ) ≤ 2 - (1 + 2) / 2)]; norm_num)]
  have happ := c4_empty_allow_list
    ⟨"W-USDT", "W", "USDT", [], some "Mint", some 6, some "0xb", some "0xm", some 18, none⟩
    none (some 1) (some 2) (some 2) (some 5) (some 7) none 0 rfl
    (by decide) (by decide) (by decide)
  exact ⟨happ.2.2.1 5 rfl (by norm_num), happ.2.2.2.1 7 rfl (by norm_num),
    happ.2.2.2.2 2 rfl hcv (by norm_num)⟩

/-- Claim C8: for a delivered single-token update, a subscriber outside the
"__all__" set receives only envelopes whose payload keys lie in its interest
(the tokens it is subscribed to); an "__all__" subscriber receives the full
single-token payload; and a subscriber that is both in the token's
subscription set and in the "__all__" set is sent exactly one envelope, the
full one. -/
theorem c8_fanout (allSubs : List ℕ) (subsOf : String → List ℕ) (tk : String) (v : Observation)
    (hnd : allSubs.Nodup) :
    (∀ ws env, (ws, env) ∈ broadcast_update allSubs subsOf [(tk, v)] → ws ∉ allSubs →
      ∀ kv ∈ env, ws ∈ subsOf kv.1) ∧
    (∀ ws env, (ws, env) ∈ broadcast_update allSubs subsOf [(tk, v)] → ws ∈ allSubs →
      env = [(tk, v)]) ∧
    (∀ ws, ws ∈ allSubs → ws ∈ subsOf tk →
      ((broadcast_update allSubs subsOf [(tk, v)]).filter
        (fun s => decide (s.1 = ws))).length = 1) := by
  have hne : ([(tk, v)] : List (String × Observation)) ≠ [] := by simp
  rw [broadcast_update, if_neg hne]
  refine ⟨?_, ?_, ?_⟩
  · intro ws env hmem hnotall
    rcases List.mem_append.mp hmem with hA | hB
    · obtain ⟨w, hw, heq⟩ := List.mem_map.mp hA
      simp only [Prod.mk.injEq] at heq
      obtain ⟨rfl, rfl⟩ := heq
      exact absurd hw hnotall
    · obtain ⟨w, hw, hfw⟩ := List.mem_filterMap.mp hB
      by_cases h1 : w ∈ allSubs
      · rw [if_pos h1] at hfw
        cases hfw
      · simp only [if_neg h1] at hfw
        split_ifs at hfw with h2
        simp only [Option.some.injEq, Prod.mk.injEq] at hfw
        obtain ⟨rfl, rfl⟩ := hfw
        intro kv hkv
        have := (List.mem_filter.mp hkv).2
        simpa using this
  · intro ws env hmem hall
    rcases List.mem_append.mp hmem with hA | hB
    · obtain ⟨w, hw, heq⟩ := List.mem_map.mp hA
      simp only [Prod.mk.injEq] at heq
      obtain ⟨rfl, rfl⟩ := heq
      rfl
    · obtain ⟨w, hw, hfw⟩ := List.mem_filterMap.mp hB
      by_cases h1 : w ∈ allSubs
      · rw [if_pos h1] at hfw
        cases hfw
      · simp only [if_neg h1] at hfw
        split_ifs at hfw with h2
        simp only [Option.some.injEq, Prod.mk.injEq] at hfw
        obtain ⟨rfl, rfl⟩ := hfw
        exact absurd hall h1
  · intro ws hall hsub
    rw [List.filter_append, List.length_append]
    have hBnil : ((((([(tk, v)] : List (String × Observation)).map Prod.fst).flatMap
        subsOf).dedup.filterMap (fun w =>
          if w ∈ allSubs then none
          else
            let fd := ([(tk, v)] : List (String × Observation)).filter
              (fun kv => decide (w ∈ subsOf kv.1))
            if fd = [] then none else some (w, fd))).filter
        (fun s => decide (s.1 = ws))) = [] := by
      rw [List.filter_eq_nil_iff]
      intro x hx
      obtain ⟨w, hw, hfw⟩ := List.mem_filterMap.mp hx
      by_cases h1 : w ∈ allSubs
      · rw [if_pos h1] at hfw
        cases hfw
      · simp only [if_neg h1] at hfw
        split_ifs at hfw with h2
        simp only [Option.some.injEq] at hfw
        obtain rfl := hfw
        simp only [decide_eq_true_eq]
        rintro rfl
        exact h1 hall
    rw [hBnil]
    simp only [List.length_nil, Nat.add_zero]
    rw [map_pair_filter]
    exact filter_eq_length_one ws allSubs hnd hall

/-- Closed witness for C8: one "__all__" subscriber (id 7) that is also
subscribed to the delivered token receives exactly one envelope. -/
theorem c8_fanout_witness :
    ((broadcast_update [7] (fun _ => [7, 3]) [("X", ⟨"X", (none, none), none, [], 0⟩)]).filter
      (fun s => decide (s.1 = 7))).length = 1 :=
  (c8_fanout [7] (fun _ => [7, 3]) "X" ⟨"X", (none, none), none, [], 0⟩ (by simp)).2.2 7
    (by simp) (by simp)

end HydraServer
